import Mathlib

/-!
Verification development for the NFe (fiscal document) query pipeline of the
desktop-util repository, file `src-tauri/src/nfe.rs`.

Modelling conventions:
* Rust `&str` / `String` values are modelled as `List Char`.  Pattern search
  and the index arithmetic derived from it are position-isomorphic between
  byte and character indices (every pattern searched is ASCII), so those
  parts are modelled on characters.  Every place where an absolute *byte*
  count enters the semantics is modelled byte-faithfully via `Char.utf8Size`:
  the 500-byte body preview `&body[..500]`, the 200-byte docZip tag-section
  slice, and the ten-byte issue-date slice `&data_emissao[..10]`; each of
  these slices can panic (out of range or not on a character boundary),
  modelled by `take_bytes` returning `none`.
* External library calls (flate2 decompressors, base64 decoding, the Windows
  certificate store, reqwest, the file system, the random generator) are not
  code of this repository; they are modelled as explicit parameters
  (`DecodeEnv`, `NetEnv`, `SaveEnv`) so that the repository's own control flow
  and data transformations are embedded exactly.
* Rust functions returning `Result<T, String>` become `Except (List Char) T`.
* A Rust panic (an out-of-bounds / non-char-boundary string slice) is modelled
  as `Option.none` for the slicing primitive and as `QOut.panicked` at the
  pipeline level.
-/

/-- Index of the first occurrence of `pat` in `s` (Rust `str::find`); `none`
when `pat` does not occur. -/
def findSub (pat : List Char) : List Char → Option Nat
  | [] => if pat.isPrefixOf ([] : List Char) then some 0 else none
  | c :: t => if pat.isPrefixOf (c :: t) then some 0 else (findSub pat t).map (· + 1)

/-- Rust `str::contains`. -/
def containsSub (s pat : List Char) : Bool :=
  (findSub pat s).isSome

/-- Rust `str::trim`. -/
def trimList (s : List Char) : List Char :=
  ((s.dropWhile Char.isWhitespace).reverse.dropWhile Char.isWhitespace).reverse

/-- Rust `str::parse::<u32>()` restricted to plain digit strings (the source
only ever parses digit substrings of the validated access key and of the
`nItem` attribute). -/
def parseU32 (s : List Char) : Option Nat :=
  if s ≠ [] ∧ s.all Char.isDigit = true then
    let n := s.foldl (fun acc c => acc * 10 + (c.toNat - '0'.toNat)) 0
    if n < 4294967296 then some n else none
  else none

/-- Total UTF-8 byte length of a string (Rust `str::len`). -/
def utf8Len (s : List Char) : Nat :=
  (s.map Char.utf8Size).sum

/-- Byte-faithful model of the Rust slice `&s[..n]`: `none` models the panic
raised when `n` overruns the string or falls inside a multi-byte character. -/
def take_bytes : Nat → List Char → Option (List Char)
  | 0, _ => some []
  | _ + 1, [] => none
  | n + 1, c :: t =>
    if c.utf8Size ≤ n + 1 then (take_bytes (n + 1 - c.utf8Size) t).map (c :: ·)
    else none

/-- From `nfe.rs`, `extract_tag_content`: locate `<tag` (note: no check that
the tag name ends there), skip to the first `>`, and take the text up to the
first literal `</tag>`. -/
def extract_tag_content (xml : List Char) (tag : List Char) : Option (List Char) := do
  let openPat := '<' :: tag
  let closePat := '<' :: '/' :: (tag ++ ['>'])
  let start ← findSub openPat xml
  let i ← findSub ['>'] (xml.drop start)
  let tagEnd := start + i + 1
  let e ← findSub closePat (xml.drop tagEnd)
  some ((xml.drop tagEnd).take e)

/-- From `nfe.rs`, `extract_block`: the whole span from `<tag` through the
first literal `</tag>` inclusive. -/
def extract_block (xml : List Char) (tag : List Char) : Option (List Char) := do
  let openPat := '<' :: tag
  let closePat := '<' :: '/' :: (tag ++ ['>'])
  let start ← findSub openPat xml
  let e ← findSub closePat (xml.drop start)
  some ((xml.drop start).take (e + closePat.length))

/-- Loop body of `extract_all_doc_zips`.  `search_from` strictly increases on
every iteration (by at least 7), so `xml.length + 1` fuel is always enough;
the wrapper below supplies it.  The source slices the tag section as
`&xml[abs_start .. abs_start + xml[abs_start..].find('>').unwrap_or(200).min(200)]`:
when no `>` follows a `<docZip`, the end index is `abs_start + 200` bytes,
and the slice panics whenever fewer than 200 bytes remain (or the boundary
falls inside a multi-byte character).  That slice is modelled byte-faithfully
by `take_bytes`, with `none` propagating the panic; the byte offset of a
found `>` is computed with `utf8Len` so that the `min` against the byte count
200 matches the source. -/
def docZipsAux (xml : List Char) : Nat → Nat → Option (List (List Char × List Char))
  | 0, _ => some []
  | fuel + 1, search_from =>
    match findSub "<docZip".data (xml.drop search_from) with
    | none => some []
    | some start =>
      let abs_start := search_from + start
      let after := xml.drop abs_start
      let segLen :=
        min (((findSub ['>'] after).map (fun k => utf8Len (after.take k))).getD 200) 200
      match take_bytes segLen after with
      | none => none
      | some tag_section =>
        let schema :=
          match findSub "schema=\"".data tag_section with
          | some sPos =>
            let s := sPos + 8
            match findSub ['"'] (tag_section.drop s) with
            | some e => (tag_section.drop s).take e
            | none => ([] : List Char)
          | none => ([] : List Char)
        match findSub ['>'] after with
        | some tag_end =>
          let content_start := abs_start + tag_end + 1
          match findSub "</docZip>".data (xml.drop content_start) with
          | some close =>
            (docZipsAux xml fuel (content_start + close + 9)).map
              ((schema, trimList ((xml.drop content_start).take close)) :: ·)
          | none => docZipsAux xml fuel (abs_start + 7)
        | none => docZipsAux xml fuel (abs_start + 7)

/-- From `nfe.rs`, `extract_all_doc_zips`: collect every `(schema, content)`
pair of the `<docZip ...>...</docZip>` elements, in document order; `none`
models the panic of the tag-section slice on a truncated trailing
`<docZip`. -/
def extract_all_doc_zips (xml : List Char) : Option (List (List Char × List Char)) :=
  docZipsAux xml (xml.length + 1) 0

/-- Mirror of the Rust struct `NfeParty` (`Default` gives empty strings). -/
structure NfeParty where
  name : List Char := []
  cnpj_cpf : List Char := []
  ie : List Char := []
  address : List Char := []
deriving DecidableEq, Repr

/-- Mirror of the Rust struct `NfeProduto`. -/
structure NfeProduto where
  num : Nat := 0
  code : List Char := []
  description : List Char := []
  ncm : List Char := []
  cfop : List Char := []
  unit : List Char := []
  qty : List Char := []
  unit_price : List Char := []
  total : List Char := []
deriving DecidableEq, Repr

/-- Mirror of the Rust struct `NfeTotais`. -/
structure NfeTotais where
  bc_icms : List Char := []
  icms : List Char := []
  bc_icms_st : List Char := []
  icms_st : List Char := []
  freight : List Char := []
  insurance : List Char := []
  discount : List Char := []
  other : List Char := []
  ipi : List Char := []
  total_products : List Char := []
  total_nfe : List Char := []
deriving DecidableEq, Repr

/-- Mirror of the Rust struct `NfeData`. -/
structure NfeData where
  chave : List Char := []
  numero : List Char := []
  serie : List Char := []
  data_emissao : List Char := []
  emitente : NfeParty := {}
  destinatario : NfeParty := {}
  produtos : List NfeProduto := []
  totais : NfeTotais := {}
  protocolo : List Char := []
deriving DecidableEq, Repr

/-- One `<det ...>` item of `parse_products`: the `nItem` attribute (falling
back to the running counter) and the `prod` sub-block fields. -/
def parseOneProduct (det_block : List Char) (item_num : Nat) : Option NfeProduto :=
  let num :=
    match findSub "nItem=\"".data det_block with
    | some nitem_pos =>
      let s := nitem_pos + 7
      match findSub ['"'] (det_block.drop s) with
      | some e => (parseU32 ((det_block.drop s).take e)).getD item_num
      | none => item_num
    | none => item_num
  match extract_block det_block "prod".data with
  | some prod_block =>
    some { num := num
           code := (extract_tag_content prod_block "cProd".data).getD []
           description := (extract_tag_content prod_block "xProd".data).getD []
           ncm := (extract_tag_content prod_block "NCM".data).getD []
           cfop := (extract_tag_content prod_block "CFOP".data).getD []
           unit := (extract_tag_content prod_block "uCom".data).getD []
           qty := (extract_tag_content prod_block "qCom".data).getD []
           unit_price := (extract_tag_content prod_block "vUnCom".data).getD []
           total := (extract_tag_content prod_block "vProd".data).getD [] }
  | none => none

/-- Loop of `parse_products`; `search_from` strictly increases by at least 6
per iteration, so `xml.length + 1` fuel is always enough. -/
def parseProductsAux (xml : List Char) : Nat → Nat → Nat → List NfeProduto
  | 0, _, _ => []
  | fuel + 1, search_from, item_num =>
    match findSub "<det ".data (xml.drop search_from) with
    | none => []
    | some det_start =>
      let abs_start := search_from + det_start
      match findSub "</det>".data (xml.drop abs_start) with
      | some det_end =>
        let det_block := (xml.drop abs_start).take (det_end + 6)
        let rest := parseProductsAux xml fuel (abs_start + det_end + 6) (item_num + 1)
        match parseOneProduct det_block item_num with
        | some p => p :: rest
        | none => rest
      | none => []

/-- From `nfe.rs`, `parse_products`. -/
def parse_products (xml : List Char) : List NfeProduto :=
  parseProductsAux xml (xml.length + 1) 0 1

/-- Address line built by `parse_nfe_xml` for both parties:
`format!("{}, {} - {} - {}/{} - CEP: {}", lgr, nro, bairro, mun, uf, cep)`. -/
def partyAddress (lgr nro bairro mun uf cep : List Char) : List Char :=
  lgr ++ ", ".data ++ nro ++ " - ".data ++ bairro ++ " - ".data ++ mun ++
    "/".data ++ uf ++ " - CEP: ".data ++ cep

/-- Party fields extracted by `parse_nfe_xml` from an `emit`/`dest` block. -/
def parseParty (block : List Char) : NfeParty :=
  { name := (extract_tag_content block "xNome".data).getD []
    cnpj_cpf :=
      ((extract_tag_content block "CNPJ".data).orElse
        (fun _ => extract_tag_content block "CPF".data)).getD []
    ie := (extract_tag_content block "IE".data).getD []
    address := partyAddress
      ((extract_tag_content block "xLgr".data).getD [])
      ((extract_tag_content block "nro".data).getD [])
      ((extract_tag_content block "xBairro".data).getD [])
      ((extract_tag_content block "xMun".data).getD [])
      ((extract_tag_content block "UF".data).getD [])
      ((extract_tag_content block "CEP".data).getD []) }

/-- From `nfe.rs`, `parse_nfe_xml`.  The Rust function's only exit is
`Ok(data)`: every missing tag or block simply leaves the `Default` value in
place. -/
def parse_nfe_xml (xml : List Char) (access_key : List Char) : Except (List Char) NfeData :=
  Except.ok
    { chave := access_key
      numero := (extract_tag_content xml "nNF".data).getD []
      serie := (extract_tag_content xml "serie".data).getD []
      data_emissao := (extract_tag_content xml "dhEmi".data).getD []
      emitente :=
        match extract_block xml "emit".data with
        | some emit_block => parseParty emit_block
        | none => {}
      destinatario :=
        match extract_block xml "dest".data with
        | some dest_block => parseParty dest_block
        | none => {}
      produtos := parse_products xml
      totais :=
        match extract_block xml "ICMSTot".data with
        | some tot_block =>
          { bc_icms := (extract_tag_content tot_block "vBC".data).getD []
            icms := (extract_tag_content tot_block "vICMS".data).getD []
            bc_icms_st := (extract_tag_content tot_block "vBCST".data).getD []
            icms_st := (extract_tag_content tot_block "vST".data).getD []
            freight := (extract_tag_content tot_block "vFrete".data).getD []
            insurance := (extract_tag_content tot_block "vSeg".data).getD []
            discount := (extract_tag_content tot_block "vDesc".data).getD []
            other := (extract_tag_content tot_block "vOutro".data).getD []
            ipi := (extract_tag_content tot_block "vIPI".data).getD []
            total_products := (extract_tag_content tot_block "vProd".data).getD []
            total_nfe := (extract_tag_content tot_block "vNF".data).getD [] }
        | none => {}
      protocolo :=
        match extract_block xml "infProt".data with
        | some prot_block =>
          ((extract_tag_content prot_block "nProt".data).getD []) ++ " - ".data ++
            ((extract_tag_content prot_block "dhRecbto".data).getD [])
        | none => [] }

/-- The external decoding collaborators used by `parse_sefaz_response`:
`b64` stands for `base64::Engine::decode` (its error text is the library's),
and `gzip`/`deflate`/`zlib` stand for the three flate2 readers, each returning
the decoded text when `read_to_string` succeeds and `none` on a read error.
These are third-party library calls, not code of this repository, so they are
parameters of the embedding. -/
structure DecodeEnv where
  b64 : List Char → Except (List Char) (List Nat)
  gzip : List Nat → Option (List Char)
  deflate : List Nat → Option (List Char)
  zlib : List Nat → Option (List Char)

/-- One decompression attempt in `decompress_doc_zip`:
`decoder.read_to_string(&mut result).is_ok() && !result.is_empty()`. -/
def tryDecoder (d : List Nat → Option (List Char)) (data : List Nat) : Option (List Char) :=
  match d data with
  | some r => if r.isEmpty then none else some r
  | none => none

/-- Error message of `decompress_doc_zip` when all three codecs fail. -/
def decompressFailMsg : List Char :=
  "Falha ao descomprimir documento (tentou gzip, deflate e zlib)".data

/-- From `nfe.rs`, `decompress_doc_zip`: try gzip, then raw deflate, then
zlib, returning the first non-empty successful decode. -/
def decompress_doc_zip (env : DecodeEnv) (data : List Nat) : Except (List Char) (List Char) :=
  match tryDecoder env.gzip data with
  | some r => Except.ok r
  | none =>
    match tryDecoder env.deflate data with
    | some r => Except.ok r
    | none =>
      match tryDecoder env.zlib data with
      | some r => Except.ok r
      | none => Except.error decompressFailMsg

/-- Base64-decode one docZip payload and decompress it, propagating errors the
way the two `?` operators in `parse_sefaz_response` do. -/
def decodePayload (env : DecodeEnv) (b64_content : List Char) : Except (List Char) (List Char) :=
  match env.b64 b64_content with
  | Except.error e => Except.error ("Falha ao decodificar base64: ".data ++ e)
  | Except.ok compressed => decompress_doc_zip env compressed

/-- The `for (schema, b64_content) in &doc_zips` loop of
`parse_sefaz_response`: decode the first payload whose schema contains
"procNFe" (errors inside the loop abort the whole function); `none` when no
schema matches. -/
def findProcNfe (env : DecodeEnv) : List (List Char × List Char) →
    Option (Except (List Char) (List Char))
  | [] => none
  | (schema, content) :: rest =>
    if containsSub schema "procNFe".data then some (decodePayload env content)
    else findProcNfe env rest

/-- From `nfe.rs`, `parse_sefaz_response`: check `cStat` against the success
sentinel "138", collect the docZip payloads (a panic there propagates),
decode the preferred (or first) payload, and delegate to `parse_nfe_xml`.
`none` models a panic; `some` wraps the function's `Result`. -/
def parse_sefaz_response (env : DecodeEnv) (soap_xml : List Char) (access_key : List Char) :
    Option (Except (List Char) NfeData) :=
  let cstat := trimList ((extract_tag_content soap_xml "cStat".data).getD [])
  let xmotivo := trimList ((extract_tag_content soap_xml "xMotivo".data).getD [])
  if cstat = "138".data then
    match extract_all_doc_zips soap_xml with
    | none => none
    | some [] => some (Except.error "Nenhum documento encontrado na resposta da SEFAZ".data)
    | some (z :: zs) =>
      let selected :=
        match findProcNfe env (z :: zs) with
        | some r => r
        | none => decodePayload env z.2
      match selected with
      | Except.error e => some (Except.error e)
      | Except.ok nfe_xml => some (parse_nfe_xml nfe_xml access_key)
  else
    some (Except.error ("SEFAZ: ".data ++ cstat ++ " - ".data ++ xmotivo))

/-- Pattern 1 of `find_cnpj_in_str`: the `for part in s.split(':')` loop,
returning the first colon-delimited segment whose trimmed content is exactly
14 ASCII digits.  (The byte-length test of the source agrees with this
character-length test: when the all-digit test also passes both lengths
coincide, and otherwise both reject.) -/
def cnpjPass1 : List (List Char) → Option (List Char)
  | [] => none
  | p :: rest =>
    let trimmed := trimList p
    if trimmed.length == 14 && trimmed.all Char.isDigit then some trimmed
    else cnpjPass1 rest

/-- Rust `str::split(sep)` semantics (always at least one segment). -/
def splitOnChar (sep : Char) : List Char → List (List Char)
  | [] => [[]]
  | c :: t =>
    if c = sep then [] :: splitOnChar sep t
    else
      match splitOnChar sep t with
      | [] => [[c]]
      | h :: r => (c :: h) :: r

/-- Pattern 2 of `find_cnpj_in_str`: the character scan accumulating `buf`
and returning it at the first non-digit boundary (or end of string) where its
length is exactly 14. -/
def cnpjScan : List Char → List Char → Option (List Char)
  | buf, [] => if buf.length = 14 then some buf else none
  | buf, c :: t =>
    if c.isDigit then cnpjScan (buf ++ [c]) t
    else if buf.length = 14 then some buf else cnpjScan [] t

/-- From `nfe.rs`, `find_cnpj_in_str`. -/
def find_cnpj_in_str (s : List Char) : Option (List Char) :=
  match cnpjPass1 (splitOnChar ':' s) with
  | some r => some r
  | none => cnpjScan [] s

/-- From `nfe.rs`, `extract_cnpj_from_cert`, final section: the two subject
strings (the simple display name and the full RDN) are obtained from the
Windows certificate store FFI; the function scans the simple name first, then
the RDN, and returns the empty string when neither matches. -/
def extract_cnpj_from_cert (simple rdn : List Char) : List Char :=
  match find_cnpj_in_str simple with
  | some cnpj => cnpj
  | none =>
    match find_cnpj_in_str rdn with
    | some cnpj => cnpj
    | none => []

/-- From `nfe.rs`, `build_soap_request` (the `format!` template flattened to a
concatenation; `{uf}`, `{tp_amb}`, `{cnpj}`, `{key}` are the interpolations). -/
def build_soap_request (access_key cnpj : List Char) (uf_code : Nat) (tp_amb : List Char) :
    List Char :=
  "<?xml version=\"1.0\" encoding=\"UTF-8\"?>\n".data ++
  "<soap12:Envelope xmlns:soap12=\"http://www.w3.org/2003/05/soap-envelope\"\n".data ++
  "                 xmlns:xsi=\"http://www.w3.org/2001/XMLSchema-instance\"\n".data ++
  "                 xmlns:xsd=\"http://www.w3.org/2001/XMLSchema\">\n".data ++
  "  <soap12:Header>\n".data ++
  "    <nfeCabecMsg xmlns=\"http://www.portalfiscal.inf.br/nfe/wsdl/NFeDistribuicaoDFe\">\n".data ++
  "      <cUF>".data ++ (Nat.repr uf_code).data ++ "</cUF>\n".data ++
  "      <versaoDados>1.01</versaoDados>\n".data ++
  "    </nfeCabecMsg>\n".data ++
  "  </soap12:Header>\n".data ++
  "  <soap12:Body>\n".data ++
  "    <nfeDistDFeInteresse xmlns=\"http://www.portalfiscal.inf.br/nfe/wsdl/NFeDistribuicaoDFe\">\n".data ++
  "      <nfeDadosMsg>\n".data ++
  "        <distDFeInt xmlns=\"http://www.portalfiscal.inf.br/nfe\" versao=\"1.01\">\n".data ++
  "          <tpAmb>".data ++ tp_amb ++ "</tpAmb>\n".data ++
  "          <cUFAutor>".data ++ (Nat.repr uf_code).data ++ "</cUFAutor>\n".data ++
  "          <CNPJ>".data ++ cnpj ++ "</CNPJ>\n".data ++
  "          <consChNFe>\n".data ++
  "            <chNFe>".data ++ access_key ++ "</chNFe>\n".data ++
  "          </consChNFe>\n".data ++
  "        </distDFeInt>\n".data ++
  "      </nfeDadosMsg>\n".data ++
  "    </nfeDistDFeInteresse>\n".data ++
  "  </soap12:Body>\n".data ++
  "</soap12:Envelope>".data

/-- The issue-date reformatting `let data_emissao_fmt = ...` inside
`generate_danfe_html` (nfe.rs:1082-1091), modelled byte-faithfully: the
source tests `data_emissao.len() >= 10` on the *byte* length and slices the
first ten *bytes* with `&data_emissao[..10]` — a slice that panics when byte
ten falls inside a multi-byte character (`none` here).  The ten-byte prefix
is split on '-' and reformatted to `parts[2]/parts[1]/parts[0]` when that
yields exactly three parts; otherwise (and for strings under ten bytes) the
string is returned unchanged. -/
def data_emissao_fmt (de : List Char) : Option (List Char) :=
  if utf8Len de ≥ 10 then
    match take_bytes 10 de with
    | none => none
    | some first10 =>
      match splitOnChar '-' first10 with
      | [y, m, d] => some (d ++ "/".data ++ m ++ "/".data ++ y)
      | _ => some de
  else some de

/-- The body preview of the non-2xx branch of `query_nfe_impl`:
`if body.len() > 500 { &body[..500] } else { &body }`. -/
def status_error_preview (body : List Char) : Option (List Char) :=
  if utf8Len body > 500 then take_bytes 500 body else some body

/-- The non-2xx error message
`format!("SEFAZ retornou status {}: {}", status, preview)`; `none` when
computing the preview panics. -/
def sefaz_status_error (statusText body : List Char) : Option (List Char) :=
  (status_error_preview body).map
    (fun pv => "SEFAZ retornou status ".data ++ statusText ++ ": ".data ++ pv)

/-- File name chosen by `save_html_to_temp`:
`format!("danfe_{}.html", random)` for a random `u64`. -/
def danfe_filename (random : Nat) : List Char :=
  "danfe_".data ++ (Nat.repr random).data ++ ".html".data

/-- File-system collaborators of `save_html_to_temp`: the temp directory path
(`std::env::temp_dir()`, assumed to end with the path separator), the random
`u64`, and the success of `File::create` / `write_all`. -/
structure SaveEnv where
  tempDir : List Char
  random : Nat
  createOk : Bool
  writeOk : Bool

/-- From `nfe.rs`, `save_html_to_temp`: write the HTML to
`temp_dir/danfe_<random>.html` and return the path.  The second component
records the files persisted (path, content). -/
def save_html_to_temp (env : SaveEnv) (html : List Char) :
    Except (List Char) (List Char) × List (List Char × List Char) :=
  let path := env.tempDir ++ danfe_filename env.random
  if env.createOk = false then
    (Except.error "Falha ao criar arquivo DANFE".data, [])
  else if env.writeOk = false then
    (Except.error "Falha ao escrever arquivo DANFE".data, [])
  else
    (Except.ok path, [(path, html)])

/-- Outcome of one `query_nfe_impl` invocation: a returned path, a returned
error, or a Rust panic. -/
inductive QOut where
  | ok (path : List Char)
  | err (msg : List Char)
  | panicked
deriving DecidableEq, Repr

/-- Effectful collaborators of `query_nfe_impl`: the certificate export
(`export_cert_pfx`, a Windows CryptoAPI wrapper returning the PFX bytes, the
random password and the extracted CNPJ), the success of
`Identity::from_pkcs12_der`, of `Client::builder().build()`, of `send()` and
of `text()`, the HTTP status, the body, and the decode/save collaborators.
Error messages appended from library error values are modelled by their fixed
prefixes. -/
structure NetEnv where
  exportResult : Except (List Char) (List Nat × List Char × List Char)
  identityOk : Bool
  clientOk : Bool
  sendOk : Bool
  readOk : Bool
  statusIsSuccess : Bool
  statusText : List Char
  body : List Char
  decode : DecodeEnv
  save : SaveEnv

/-- From `nfe.rs`, `query_nfe_impl` (Windows path), with the HTML renderer
passed as a parameter (`generate_danfe_html` is a pure total function whose
output never influences control flow).  Returns the outcome, the PFX-buffer
state at exit — `none` if `export_cert_pfx` never succeeded, `some b` with `b`
true iff `pfx_bytes.fill(0)` ran before the exit — and the list of files
persisted. -/
def query_nfe_impl (env : NetEnv) (render : NfeData → List Char) (access_key : List Char) :
    QOut × Option Bool × List (List Char × List Char) :=
  if ¬ (access_key.length = 44 ∧ access_key.all Char.isDigit = true) then
    (QOut.err "Chave de acesso deve conter exatamente 44 dígitos numéricos".data, none, [])
  else
    match parseU32 (access_key.take 2) with
    | none => (QOut.err "Código UF inválido na chave de acesso".data, none, [])
    | some uf_code =>
      match env.exportResult with
      | Except.error e => (QOut.err e, none, [])
      | Except.ok (_pfx_bytes, _password, cnpj) =>
        if cnpj.isEmpty then
          -- `pfx_bytes.fill(0)` runs on this branch.
          (QOut.err "Não foi possível extrair o CNPJ do certificado selecionado. Verifique se é um e-CNPJ (A1).".data,
           some true, [])
        else
          let _soap_xml := build_soap_request access_key cnpj uf_code "1".data
          if env.identityOk = false then
            -- `Identity::from_pkcs12_der` failed: the `?` returns *before*
            -- the `pfx_bytes.fill(0)` on line 94 is reached.
            (QOut.err "Falha ao criar identidade TLS".data, some false, [])
          else
            -- Line 94: `pfx_bytes.fill(0)`; every later exit sees `some true`.
            if env.clientOk = false then
              (QOut.err "Falha ao criar cliente HTTP".data, some true, [])
            else if env.sendOk = false then
              (QOut.err "Falha na comunicação com SEFAZ".data, some true, [])
            else if env.readOk = false then
              (QOut.err "Falha ao ler resposta".data, some true, [])
            else if env.statusIsSuccess = false then
              match sefaz_status_error env.statusText env.body with
              | some m => (QOut.err m, some true, [])
              | none => (QOut.panicked, some true, [])
            else
              match parse_sefaz_response env.decode env.body access_key with
              | none => (QOut.panicked, some true, [])
              | some (Except.error e) => (QOut.err e, some true, [])
              | some (Except.ok nfe_data) =>
                let html := render nfe_data
                match save_html_to_temp env.save html with
                | (Except.error e, ws) => (QOut.err e, some true, ws)
                | (Except.ok path, ws) => (QOut.ok path, some true, ws)

/-- Left-biased choice on options (used to state selection rules). -/
def orElseO {α : Type} (a b : Option α) : Option α :=
  match a with
  | some x => some x
  | none => b

theorem dropWhile_length_le (p : Char → Bool) :
    (l : List Char) → (l.dropWhile p).length ≤ l.length
  | [] => Nat.le_refl _
  | c :: t => by
    rw [List.dropWhile]
    cases p c with
    | true => exact Nat.le_trans (dropWhile_length_le p t) (Nat.le_succ _)
    | false => exact Nat.le_refl _

theorem dropWhile_head_not (p : Char → Bool) :
    (l : List Char) → ∀ c r, l.dropWhile p = c :: r → p c = false
  | [], c, r => by intro h; cases h
  | a :: t, c, r => by
    rw [List.dropWhile]
    cases ha : p a with
    | true => exact dropWhile_head_not p t c r
    | false => intro h; cases h; exact ha

/-- Specification-side description of the maximal runs of consecutive ASCII
digits in a string, in order. -/
def digitRuns : List Char → List (List Char)
  | [] => []
  | c :: t =>
    if c.isDigit then
      (c :: t.takeWhile Char.isDigit) :: digitRuns (t.dropWhile Char.isDigit)
    else
      digitRuns t
termination_by l => l.length
decreasing_by
  · simp only [List.length_cons]
    exact Nat.lt_succ_of_le (dropWhile_length_le _ t)
  · simp

/-- Specification-side "first standalone run of exactly 14 consecutive
digits". -/
def firstRun14 (s : List Char) : Option (List Char) :=
  (digitRuns s).find? (fun r => r.length == 14)

/-- Specification-side "first colon-delimited segment that after trimming is
exactly 14 digits" (this includes the leading segment, which does not follow
any colon). -/
def colonSegSpec (s : List Char) : Option (List Char) :=
  ((splitOnChar ':' s).map trimList).find?
    (fun t => t.length == 14 && t.all Char.isDigit)

/-- Formalisation of rule (a) as the claim words it: the first run of exactly
14 consecutive digits that immediately follows a colon. -/
def claim_colon_run : List Char → Option (List Char)
  | [] => none
  | c :: t =>
    if c = ':' then
      let run := t.takeWhile Char.isDigit
      if run.length == 14 then some run else claim_colon_run t
    else claim_colon_run t

/-- Specification-side "the first ten characters have the ISO shape
YYYY-MM-DD". -/
def isIsoDatePrefix (s : List Char) : Bool :=
  match s with
  | y1 :: y2 :: y3 :: y4 :: h1 :: m1 :: m2 :: h2 :: d1 :: d2 :: _ =>
    y1.isDigit && y2.isDigit && y3.isDigit && y4.isDigit && (h1 == '-') &&
      m1.isDigit && m2.isDigit && (h2 == '-') && d1.isDigit && d2.isDigit
  | _ => false

theorem cnpjScan_step (t : List Char) : ∀ buf : List Char,
    cnpjScan buf t =
      if (buf ++ t.takeWhile Char.isDigit).length = 14 then
        some (buf ++ t.takeWhile Char.isDigit)
      else cnpjScan [] ((t.dropWhile Char.isDigit).drop 1) := by
  induction t with
  | nil =>
    intro buf
    simp [cnpjScan, List.takeWhile, List.dropWhile]
  | cons c t ih =>
    intro buf
    cases hc : c.isDigit with
    | true =>
      simp only [cnpjScan, hc, List.takeWhile_cons, List.dropWhile_cons, if_pos rfl,
        ite_true]
      rw [ih (buf ++ [c])]
      simp [List.append_assoc]
    | false =>
      simp only [cnpjScan, hc, List.takeWhile_cons, List.dropWhile_cons, ite_false,
        Bool.false_eq_true, List.append_nil, List.drop_succ_cons, List.drop_zero]

theorem cnpjScan_firstRun_aux :
    ∀ (n : Nat) (s : List Char), s.length ≤ n → cnpjScan [] s = firstRun14 s := by
  intro n
  induction n with
  | zero =>
    intro s hs
    have : s = [] := List.length_eq_zero.mp (Nat.le_zero.mp hs)
    subst this
    simp [cnpjScan, firstRun14, digitRuns]
  | succ n ih =>
    intro s hs
    match s with
    | [] => simp [cnpjScan, firstRun14, digitRuns]
    | c :: t =>
      cases hc : c.isDigit with
      | false =>
        have h1 : cnpjScan [] (c :: t) = cnpjScan [] t := by
          simp [cnpjScan, hc]
        have h2 : digitRuns (c :: t) = digitRuns t := by
          rw [digitRuns]; simp [hc]
        rw [h1, firstRun14, h2, ← firstRun14]
        exact ih t (Nat.le_of_succ_le_succ hs)
      | true =>
        have h1 : cnpjScan [] (c :: t) = cnpjScan [c] t := by
          simp [cnpjScan, hc]
        have h2 : digitRuns (c :: t) =
            (c :: t.takeWhile Char.isDigit) :: digitRuns (t.dropWhile Char.isDigit) := by
          rw [digitRuns]; simp [hc]
        rw [h1, cnpjScan_step t [c], firstRun14, h2]
        by_cases hlen : (c :: t.takeWhile Char.isDigit).length = 14
        · simp only [List.singleton_append, if_pos hlen, List.find?]
          have : ((c :: t.takeWhile Char.isDigit).length == 14) = true := by
            exact Nat.beq_eq_true_eq _ _ ▸ hlen
          rw [this]
        · simp only [List.singleton_append, if_neg hlen, List.find?]
          have : ((c :: t.takeWhile Char.isDigit).length == 14) = false := by
            simpa using hlen
          rw [this, ← firstRun14]
          cases hd : t.dropWhile Char.isDigit with
          | nil => simp [firstRun14, digitRuns, cnpjScan]
          | cons c2 r =>
            have hc2 : c2.isDigit = false := dropWhile_head_not Char.isDigit t c2 r hd
            have h3 : digitRuns (c2 :: r) = digitRuns r := by
              rw [digitRuns]; simp [hc2]
            have hr : r.length ≤ n := by
              have hd_le : (t.dropWhile Char.isDigit).length ≤ t.length :=
                dropWhile_length_le Char.isDigit t
              rw [hd] at hd_le
              simp only [List.length_cons] at hd_le hs
              omega
            rw [List.drop_succ_cons, List.drop_zero, firstRun14, h3, ← firstRun14]
            exact ih r hr

theorem cnpjScan_eq_firstRun (s : List Char) : cnpjScan [] s = firstRun14 s :=
  cnpjScan_firstRun_aux s.length s (Nat.le_refl _)

theorem cnpjPass1_eq_find (l : List (List Char)) :
    cnpjPass1 l =
      (l.map trimList).find? (fun t => t.length == 14 && t.all Char.isDigit) := by
  induction l with
  | nil => rfl
  | cons p rest ih =>
    simp only [cnpjPass1, List.map_cons, List.find?]
    cases hp : ((trimList p).length == 14 && (trimList p).all Char.isDigit) with
    | true => simp [hp]
    | false => simp [hp, ih]

theorem findProcNfe_eq_find (env : DecodeEnv) (l : List (List Char × List Char)) :
    findProcNfe env l =
      (l.find? (fun p => containsSub p.1 "procNFe".data)).map
        (fun p => decodePayload env p.2) := by
  induction l with
  | nil => rfl
  | cons p rest ih =>
    cases p with
    | mk schema content =>
      simp only [findProcNfe, List.find?]
      cases hc : containsSub schema "procNFe".data with
      | true => simp [hc]
      | false => simp [hc, ih]

theorem splitOnChar_length (sep : Char) :
    (l : List Char) → (splitOnChar sep l).length = l.count sep + 1
  | [] => rfl
  | c :: t => by
    by_cases hc : c = sep
    · subst hc
      have hlen := splitOnChar_length c t
      simp only [splitOnChar, if_pos rfl, List.length_cons, List.count_cons]
      simp [hlen]
    · have hlen := splitOnChar_length sep t
      cases hsp : splitOnChar sep t with
      | nil => rw [hsp] at hlen; simp at hlen
      | cons h r =>
        rw [hsp] at hlen
        have hb : (c == sep) = false := by simpa using hc
        have hL : splitOnChar sep (c :: t) = (c :: h) :: r := by
          simp only [splitOnChar, if_neg hc, hsp]
        rw [hL, List.length_cons, List.count_cons, hb]
        simp only [List.length_cons] at hlen
        simp only [Bool.false_eq_true, if_false]
        omega

theorem isDigit_ne_dash {c : Char} (h : c.isDigit = true) : ¬ c = '-' := by
  intro e
  rw [e] at h
  exact absurd h (by decide)

/-- A valid 44-digit access key used in concrete runs. -/
def key1 : List Char := List.replicate 44 '1'

/-- Renderer stand-in used in concrete runs (the pipeline never inspects the
rendered HTML). -/
def renderNum : NfeData → List Char := fun d => d.numero

/-- A concrete decode environment: base64 maps payload "BBB" to byte `[2]`
and anything else to `[1]`; gzip decodes `[2]` to a minimal NFe XML. -/
def decB : DecodeEnv :=
  { b64 := fun c => if c = "BBB".data then Except.ok [2] else Except.ok [1]
    gzip := fun b => if b = [2] then some "<nNF>45</nNF>".data else none
    deflate := fun _ => none
    zlib := fun _ => none }

/-- A concrete save environment. -/
def saveB : SaveEnv :=
  { tempDir := "/tmp/".data, random := 7, createOk := true, writeOk := true }

/-- A concrete success response: status 138 with two docZip payloads, the
second of which carries the procNFe schema. -/
def soapB : List Char :=
  "<cStat>138</cStat><docZip schema=\"resNFe\">AAA</docZip><docZip schema=\"procNFe\">BBB</docZip>".data

/-- A concrete fully-successful network environment. -/
def netB : NetEnv :=
  { exportResult := Except.ok ([1, 2, 3], "pw".data, "11222333000181".data)
    identityOk := true, clientOk := true, sendOk := true, readOk := true
    statusIsSuccess := true, statusText := "200 OK".data
    body := soapB, decode := decB, save := saveB }

/-- C1: the claim (and the spec's security contract) says the exported PFX
buffer is zeroed before `query_nfe_impl` returns on *every* exit path,
including a failure of the TLS identity construction.  The code zeroes the
buffer only *after* `Identity::from_pkcs12_der` succeeds (line 94 of
`nfe.rs`), so the error return on line 91 leaves the buffer intact: with a
valid key, a successful export and a failing identity construction, the
pipeline exits with the PFX state `some false` (exported, never zeroed).  A
failure one step later (HTTP client build) exits with `some true`, showing
every other listed path does zero the buffer. -/
theorem c1_pfx_not_zeroed_on_tls_identity_failure :
    query_nfe_impl { netB with identityOk := false } renderNum key1 =
      (QOut.err "Falha ao criar identidade TLS".data, some false, []) ∧
    query_nfe_impl { netB with clientOk := false } renderNum key1 =
      (QOut.err "Falha ao criar cliente HTTP".data, some true, []) := by
  exact ⟨by decide, by decide⟩

/-- C3 counterexample: the claim says extraction errors exactly when the text
has no recognizable document content; but `parse_nfe_xml` has no error exit
at all — on a text with no recognizable content it still returns `Ok`. -/
theorem c3_counterexample :
    (parse_nfe_xml "this text has no recognizable document content".data key1).isOk = true :=
  rfl

/-- C3 amended: extraction never returns an error for any decoded text;
missing blocks — even all of them — yield the default/empty substructures. -/
theorem c3_parse_never_errors (xml access_key : List Char) :
    (parse_nfe_xml xml access_key).isOk = true :=
  rfl

/-- Body whose 500-byte boundary falls inside the two-byte character 'é'
(bytes 499..=500), after 499 one-byte characters. -/
def c8_bad_body : List Char := List.replicate 499 'a' ++ ['é', 'x']

set_option maxRecDepth 10000 in
/-- C8: the claim says computing the first-500-bytes preview is total.  The
code slices `&body[..500]`, which panics when byte 500 is not a character
boundary: on `c8_bad_body` the preview computation panics (modelled `none`,
pipeline outcome `panicked`), while on an all-ASCII body it is the first 500
bytes as claimed. -/
theorem c8_preview_slice_panics :
    status_error_preview c8_bad_body = none ∧
    query_nfe_impl { netB with statusIsSuccess := false, body := c8_bad_body } renderNum key1 =
      (QOut.panicked, some true, []) ∧
    status_error_preview (List.replicate 501 'a') = some (List.replicate 500 'a') := by
  exact ⟨by decide, by decide, by decide⟩

/-- The block configuration named by C10: an `IEST` element preceding the
`IE` element. -/
def c10xml : List Char := "<emit><IEST>999</IEST><IE>123</IE></emit>".data

/-- C10 counterexample: with `<IEST>999</IEST>` preceding `<IE>123</IE>`, the
prefix-matched query for `IE` returns neither the `IEST` element's content
("999", as the claim states) nor the `IE` element's content ("123"): it
returns the garbled span "999</IEST><IE>123". -/
theorem c10_counterexample :
    extract_tag_content c10xml "IE".data = some "999</IEST><IE>123".data ∧
    extract_tag_content c10xml "IEST".data = some "999".data ∧
    ("999</IEST><IE>123".data ≠ "999".data ∧ "999</IEST><IE>123".data ≠ "123".data) := by
  exact ⟨by decide, by decide, by decide, by decide⟩

/-- C10 amended: the opening tag is located by the literal prefix `<` + tag
name with no terminator check, so when an element whose name extends the tag
(IEST) precedes the tag's own element (IE), the extracted party field is a
garbled span starting inside the wrong element — not the `IE` content "123"
that a conformant parser would produce (shown on the isolated element). -/
theorem c10_prefix_match_garbles_ie_field :
    Except.map (fun d => d.emitente.ie) (parse_nfe_xml c10xml key1) =
      Except.ok "999</IEST><IE>123".data ∧
    extract_tag_content "<IE>123</IE>".data "IE".data = some "123".data := by
  exact ⟨by rfl, by decide⟩

/-- C4: whenever the extracted and trimmed `cStat` differs from the success
sentinel "138", `parse_sefaz_response` returns the protocol error carrying the
code and the status message.  The right-hand side does not depend on the
decode environment `env`, so no payload location, base64 decoding or
decompression is performed — even when docZip blocks are present. -/
theorem c4_non_success_status_aborts (env : DecodeEnv) (soap_xml access_key : List Char)
    (h : trimList ((extract_tag_content soap_xml "cStat".data).getD []) ≠ "138".data) :
    parse_sefaz_response env soap_xml access_key =
      some (Except.error ("SEFAZ: ".data ++
        trimList ((extract_tag_content soap_xml "cStat".data).getD []) ++ " - ".data ++
        trimList ((extract_tag_content soap_xml "xMotivo".data).getD []))) := by
  simp only [parse_sefaz_response]
  rw [if_neg h]

/-- A rejection response that still carries a docZip payload block. -/
def soapC4 : List Char :=
  "<cStat>999</cStat><xMotivo>Rejeicao ZZZ</xMotivo><docZip schema=\"procNFe\">AA</docZip>".data

/-- Witness for C4: a concrete rejection (cStat 999) with a docZip block
present yields exactly the protocol error. -/
theorem c4_witness :
    parse_sefaz_response decB soapC4 key1 =
      some (Except.error "SEFAZ: 999 - Rejeicao ZZZ".data) := by
  have h := c4_non_success_status_aborts decB soapC4 key1 (by decide)
  rw [h]
  rfl

/-- C5: `decompress_doc_zip` tries gzip, then raw deflate, then zlib, in that
order; a successful non-empty decode at any stage is returned and later
stages are not consulted; the decode error arises exactly when all three
attempts fail or yield empty text; and any decoder returning non-empty text
counts as a successful attempt.  (The function is total, so a payload whose
leading bytes resemble another codec's header can only fall through to the
next decoder or end in the clean decode error.) -/
theorem c5_decompress_codec_order (env : DecodeEnv) (data : List Nat) :
    (∀ r, tryDecoder env.gzip data = some r → decompress_doc_zip env data = Except.ok r) ∧
    (tryDecoder env.gzip data = none →
      ∀ r, tryDecoder env.deflate data = some r → decompress_doc_zip env data = Except.ok r) ∧
    (tryDecoder env.gzip data = none → tryDecoder env.deflate data = none →
      ∀ r, tryDecoder env.zlib data = some r → decompress_doc_zip env data = Except.ok r) ∧
    (decompress_doc_zip env data = Except.error decompressFailMsg ↔
      tryDecoder env.gzip data = none ∧ tryDecoder env.deflate data = none ∧
        tryDecoder env.zlib data = none) ∧
    (∀ d r, d data = some r → r ≠ [] → tryDecoder d data = some r) := by
  refine ⟨?_, ?_, ?_, ?_, ?_⟩
  · intro r h
    simp [decompress_doc_zip, h]
  · intro h1 r h2
    simp [decompress_doc_zip, h1, h2]
  · intro h1 h2 r h3
    simp [decompress_doc_zip, h1, h2, h3]
  · constructor
    · intro h
      rcases hg : tryDecoder env.gzip data with _ | r
      · rcases hd : tryDecoder env.deflate data with _ | r
        · rcases hz : tryDecoder env.zlib data with _ | r
          · exact ⟨hg ▸ rfl, hd ▸ rfl, hz ▸ rfl⟩
          · simp [decompress_doc_zip, hg, hd, hz] at h
        · simp [decompress_doc_zip, hg, hd] at h
      · simp [decompress_doc_zip, hg] at h
    · rintro ⟨h1, h2, h3⟩
      simp [decompress_doc_zip, h1, h2, h3]
  · intro d r h1 h2
    simp [tryDecoder, h1, h2]

/-- Decode environment whose gzip decoder fails and whose deflate decoder
succeeds with non-empty text. -/
def decC5 : DecodeEnv :=
  { b64 := fun _ => Except.error [], gzip := fun _ => none
    deflate := fun _ => some "x".data, zlib := fun _ => none }

/-- Witness for C5: with gzip failing, the deflate decode is returned. -/
theorem c5_witness : decompress_doc_zip decC5 [3] = Except.ok "x".data :=
  (c5_decompress_codec_order decC5 [3]).2.1 rfl "x".data rfl

/-- The success response used by the C6 counterexample: one complete procNFe
docZip payload block. -/
def soapC6good : List Char :=
  "<cStat>138</cStat><docZip schema=\"procNFe\">BBB</docZip>".data

/-- `soapC6good` followed by a trailing `<docZip` with no `>` and fewer than
200 bytes remaining: the tag-section slice panics. -/
def soapC6panic : List Char := soapC6good ++ "<docZip".data

/-- C6 counterexample: the claim quantifies over every response containing at
least one docZip payload block.  `soapC6panic` contains the same complete
procNFe payload block as `soapC6good`, yet on it the payload scan panics at
the trailing `<docZip` (no following `>`, so the slice end is
`abs_start + 200`, past the end of the buffer): the decoder panics instead of
selecting the payload, while on `soapC6good` selection succeeds. -/
theorem c6_counterexample :
    extract_all_doc_zips soapC6panic = none ∧
    parse_sefaz_response decB soapC6panic key1 = none ∧
    extract_all_doc_zips soapC6good = some [("procNFe".data, "BBB".data)] ∧
    parse_sefaz_response decB soapC6good key1 =
      some (Except.ok { chave := key1, numero := "45".data }) := by
  exact ⟨by decide, by rfl, by decide, by rfl⟩

/-- C6 amended: provided the payload collection completes without panicking
and yields a non-empty payload list (the docZip scan panics on a truncated
trailing `<docZip`), the decoder processes exactly the first payload whose
schema contains "procNFe" (`List.find?` over the payloads in document
order), falling back to the first payload when no schema matches; the
decoded XML is then handed to `parse_nfe_xml`, and a decode failure of the
selected payload aborts. -/
theorem c6_payload_selection (env : DecodeEnv) (soap_xml access_key : List Char)
    (z : List Char × List Char) (zs : List (List Char × List Char))
    (h138 : trimList ((extract_tag_content soap_xml "cStat".data).getD []) = "138".data)
    (hzips : extract_all_doc_zips soap_xml = some (z :: zs)) :
    parse_sefaz_response env soap_xml access_key =
      some (match (match (z :: zs).find? (fun p => containsSub p.1 "procNFe".data) with
                   | some p => decodePayload env p.2
                   | none => decodePayload env z.2) with
            | Except.error e => Except.error e
            | Except.ok nfe_xml => parse_nfe_xml nfe_xml access_key) := by
  simp only [parse_sefaz_response]
  rw [if_pos h138, hzips]
  simp only [findProcNfe_eq_find]
  cases hf : (z :: zs).find? (fun p => containsSub p.1 "procNFe".data) with
  | none =>
    simp only [hf, Option.map_none']
    cases decodePayload env z.2 <;> rfl
  | some p =>
    simp only [hf, Option.map_some']
    cases decodePayload env p.2 <;> rfl

/-- Witness for C6: on the concrete response `soapB` the second payload (the
procNFe one) is selected, decoded and parsed. -/
theorem c6_witness :
    parse_sefaz_response decB soapB key1 =
      some (Except.ok { chave := key1, numero := "45".data }) := by
  have h := c6_payload_selection decB soapB key1 ("resNFe".data, "AAA".data)
    [("procNFe".data, "BBB".data)] (by decide) (by decide)
  rw [h]
  rfl

/-- C7 counterexample: on `"12345678901234:98765432109876"` a 14-digit run
immediately follows the colon, so the claim's rule (a) selects
"98765432109876"; the code's pattern 1, however, also accepts the segment
*before* the colon and returns "12345678901234" — a different identifier. -/
theorem c7_counterexample :
    claim_colon_run "12345678901234:98765432109876".data = some "98765432109876".data ∧
    find_cnpj_in_str "12345678901234:98765432109876".data = some "12345678901234".data ∧
    "12345678901234".data ≠ "98765432109876".data := by
  exact ⟨by decide, by decide, by decide⟩

/-- C7 amended: the scan first returns the first colon-delimited segment
(including the leading segment, which does not follow a colon) whose trimmed
content is exactly 14 digits; only when no segment qualifies does it return
the first standalone run of exactly 14 consecutive digits; the simple display
name takes priority over the distinguished name, and no match at all yields
the empty string rather than an error. -/
theorem c7_cnpj_extraction_rule (simple rdn : List Char) :
    extract_cnpj_from_cert simple rdn =
      (orElseO (find_cnpj_in_str simple) (find_cnpj_in_str rdn)).getD [] ∧
    (∀ s, find_cnpj_in_str s = orElseO (colonSegSpec s) (firstRun14 s)) := by
  constructor
  · unfold extract_cnpj_from_cert orElseO
    cases find_cnpj_in_str simple with
    | some c => rfl
    | none =>
      cases find_cnpj_in_str rdn with
      | some c => rfl
      | none => rfl
  · intro s
    unfold find_cnpj_in_str orElseO colonSegSpec
    rw [cnpjPass1_eq_find]
    cases ((splitOnChar ':' s).map trimList).find?
        (fun t => t.length == 14 && t.all Char.isDigit) with
    | some r => rfl
    | none => exact cnpjScan_eq_firstRun s

theorem splitOnChar_iso (y1 y2 y3 y4 m1 m2 d1 d2 : Char)
    (hy1 : ¬ y1 = '-') (hy2 : ¬ y2 = '-') (hy3 : ¬ y3 = '-') (hy4 : ¬ y4 = '-')
    (hm1 : ¬ m1 = '-') (hm2 : ¬ m2 = '-') (hd1 : ¬ d1 = '-') (hd2 : ¬ d2 = '-') :
    splitOnChar '-' [y1, y2, y3, y4, '-', m1, m2, '-', d1, d2] =
      [[y1, y2, y3, y4], [m1, m2], [d1, d2]] := by
  simp [splitOnChar, hy1, hy2, hy3, hy4, hm1, hm2, hd1, hd2]

theorem isIso_decomp (s : List Char) (h : isIsoDatePrefix s = true) :
    ∃ y1 y2 y3 y4 m1 m2 d1 d2 rest,
      s = y1 :: y2 :: y3 :: y4 :: '-' :: m1 :: m2 :: '-' :: d1 :: d2 :: rest ∧
      y1.isDigit = true ∧ y2.isDigit = true ∧ y3.isDigit = true ∧ y4.isDigit = true ∧
      m1.isDigit = true ∧ m2.isDigit = true ∧ d1.isDigit = true ∧ d2.isDigit = true := by
  rcases s with _ | ⟨y1, s⟩
  · simp [isIsoDatePrefix] at h
  rcases s with _ | ⟨y2, s⟩
  · simp [isIsoDatePrefix] at h
  rcases s with _ | ⟨y3, s⟩
  · simp [isIsoDatePrefix] at h
  rcases s with _ | ⟨y4, s⟩
  · simp [isIsoDatePrefix] at h
  rcases s with _ | ⟨h1, s⟩
  · simp [isIsoDatePrefix] at h
  rcases s with _ | ⟨m1, s⟩
  · simp [isIsoDatePrefix] at h
  rcases s with _ | ⟨m2, s⟩
  · simp [isIsoDatePrefix] at h
  rcases s with _ | ⟨h2, s⟩
  · simp [isIsoDatePrefix] at h
  rcases s with _ | ⟨d1, s⟩
  · simp [isIsoDatePrefix] at h
  rcases s with _ | ⟨d2, rest⟩
  · simp [isIsoDatePrefix] at h
  simp only [isIsoDatePrefix, Bool.and_eq_true, beq_iff_eq] at h
  obtain ⟨⟨⟨⟨⟨⟨⟨⟨⟨hy1, hy2⟩, hy3⟩, hy4⟩, hh1⟩, hm1⟩, hm2⟩, hh2⟩, hd1⟩, hd2⟩ := h
  subst hh1
  subst hh2
  exact ⟨y1, y2, y3, y4, m1, m2, d1, d2, rest, rfl,
    hy1, hy2, hy3, hy4, hm1, hm2, hd1, hd2⟩

theorem utf8Size_one_of_isDigit {c : Char} (h : c.isDigit = true) : c.utf8Size = 1 := by
  simp [Char.isDigit] at h
  obtain ⟨h1, h2⟩ := h
  unfold Char.utf8Size
  simp only []
  split
  · rfl
  · rename_i hcontra
    have hlit : (57 : UInt32) ≤ UInt32.ofNatCore 127 Char.utf8Size.proof_1 := by decide
    exact absurd (Nat.le_trans h2 hlit) hcontra

theorem utf8Len_ge_of_take_bytes :
    ∀ (s : List Char) (n : Nat) (f : List Char), take_bytes n s = some f → n ≤ utf8Len s
  | _, 0, _ => fun _ => Nat.zero_le _
  | [], _ + 1, _ => by
    intro h
    simp [take_bytes] at h
  | c :: t, n + 1, f => by
    intro h
    simp only [take_bytes] at h
    by_cases hc : c.utf8Size ≤ n + 1
    · rw [if_pos hc] at h
      cases hf : take_bytes (n + 1 - c.utf8Size) t with
      | none => rw [hf] at h; simp at h
      | some f2 =>
        have ih := utf8Len_ge_of_take_bytes t (n + 1 - c.utf8Size) f2 hf
        have hlen : utf8Len (c :: t) = c.utf8Size + utf8Len t := by
          simp [utf8Len]
        omega
    · rw [if_neg hc] at h
      simp at h

theorem fmt_after_slice (de first10 : List Char) (hge : 10 ≤ utf8Len de)
    (htb : take_bytes 10 de = some first10) :
    data_emissao_fmt de =
      (match splitOnChar '-' first10 with
       | [y, m, d] => some (d ++ "/".data ++ m ++ "/".data ++ y)
       | _ => some de) := by
  simp only [data_emissao_fmt]
  rw [if_pos hge, htb]

/-- C9 amended: the renderer's date reformatting works on the first ten
*bytes* of the issue date: any string whose first ten bytes form whole
characters that split on '-' into exactly three segments is reformatted to
`segment2/segment1/segment0` — in particular every ISO `YYYY-MM-DD` prefix
becomes `DD/MM/YYYY`; a string is left unchanged when it is shorter than ten
bytes, or when its ten-byte prefix does not contain exactly two dashes; and
the slice `&data_emissao[..10]` panics when the string is at least ten bytes
long but byte ten falls inside a multi-byte character.  A non-ISO string
with exactly two dashes in its ten-byte prefix is therefore reformatted, and
a sub-ten-character non-ASCII string may be reformatted or panic, contrary
to the original claim. -/
theorem c9_date_reformat (s : List Char) :
    (isIsoDatePrefix s = true →
      data_emissao_fmt s =
        some ((s.drop 8).take 2 ++ "/".data ++ (s.drop 5).take 2 ++ "/".data ++ s.take 4)) ∧
    (utf8Len s < 10 → data_emissao_fmt s = some s) ∧
    (∀ first10, take_bytes 10 s = some first10 → first10.count '-' ≠ 2 →
      data_emissao_fmt s = some s) ∧
    (utf8Len s ≥ 10 → take_bytes 10 s = none → data_emissao_fmt s = none) := by
  refine ⟨?_, ?_, ?_, ?_⟩
  · intro h
    obtain ⟨y1, y2, y3, y4, m1, m2, d1, d2, rest, hs,
      hy1, hy2, hy3, hy4, hm1, hm2, hd1, hd2⟩ := isIso_decomp s h
    subst hs
    have e1 := utf8Size_one_of_isDigit hy1
    have e2 := utf8Size_one_of_isDigit hy2
    have e3 := utf8Size_one_of_isDigit hy3
    have e4 := utf8Size_one_of_isDigit hy4
    have e5 := utf8Size_one_of_isDigit hm1
    have e6 := utf8Size_one_of_isDigit hm2
    have e7 := utf8Size_one_of_isDigit hd1
    have e8 := utf8Size_one_of_isDigit hd2
    have edash : ('-' : Char).utf8Size = 1 := by decide
    have htb : take_bytes 10
        (y1 :: y2 :: y3 :: y4 :: '-' :: m1 :: m2 :: '-' :: d1 :: d2 :: rest) =
        some [y1, y2, y3, y4, '-', m1, m2, '-', d1, d2] := by
      simp [take_bytes, e1, e2, e3, e4, e5, e6, e7, e8, edash]
    have hge : 10 ≤ utf8Len
        (y1 :: y2 :: y3 :: y4 :: '-' :: m1 :: m2 :: '-' :: d1 :: d2 :: rest) := by
      have h10 : utf8Len (y1 :: y2 :: y3 :: y4 :: '-' :: m1 :: m2 :: '-' :: d1 :: d2 :: rest) =
          10 + utf8Len rest := by
        simp only [utf8Len, List.map_cons, List.sum_cons, e1, e2, e3, e4, e5, e6, e7, e8,
          edash]
        omega
      omega
    have hsplit := splitOnChar_iso y1 y2 y3 y4 m1 m2 d1 d2
      (isDigit_ne_dash hy1) (isDigit_ne_dash hy2) (isDigit_ne_dash hy3) (isDigit_ne_dash hy4)
      (isDigit_ne_dash hm1) (isDigit_ne_dash hm2) (isDigit_ne_dash hd1) (isDigit_ne_dash hd2)
    rw [fmt_after_slice _ _ hge htb, hsplit]
    rfl
  · intro hlt
    simp only [data_emissao_fmt]
    rw [if_neg (by omega)]
  · intro first10 htb hcount
    rw [fmt_after_slice s first10 (utf8Len_ge_of_take_bytes s 10 first10 htb) htb]
    have h3 : (splitOnChar '-' first10).length ≠ 3 := by
      rw [splitOnChar_length]
      omega
    rcases hsp : splitOnChar '-' first10 with _ | ⟨a, _ | ⟨b, _ | ⟨c, _ | ⟨d, e⟩⟩⟩⟩
    · rfl
    · rfl
    · rfl
    · rw [hsp] at h3
      simp at h3
    · rfl
  · intro hge htb
    simp only [data_emissao_fmt]
    rw [if_pos hge, htb]

/-- Witness for C9: the ISO-prefixed date "2024-01-02T03:04:05" is rendered
as "02/01/2024". -/
theorem c9_witness :
    data_emissao_fmt "2024-01-02T03:04:05".data = some "02/01/2024".data := by
  have h := (c9_date_reformat "2024-01-02T03:04:05".data).1 (by decide)
  rw [h]
  rfl

/-- C9 counterexample, three refutations of "leaves every non-conforming
issue-date string unchanged": the ASCII string "12-34-5678" has no ISO
`YYYY-MM-DD` prefix yet is reformatted to "5678/34/12"; the nine-character
"éé-é-éXYZ" (13 bytes, ten-byte prefix "éé-é-é") is reformatted to "é/é/éé";
and the six-character "aééééé" (11 bytes, byte ten inside the final 'é')
makes the slice panic instead of leaving the string unchanged. -/
theorem c9_counterexample :
    isIsoDatePrefix "12-34-5678".data = false ∧
    data_emissao_fmt "12-34-5678".data = some "5678/34/12".data ∧
    isIsoDatePrefix "éé-é-éXYZ".data = false ∧
    data_emissao_fmt "éé-é-éXYZ".data = some "é/é/éé".data ∧
    data_emissao_fmt "aééééé".data = none := by
  exact ⟨by decide, by decide, by decide, by decide, by decide⟩

/-- C2 counterexample: a concrete fully-successful query persists exactly one
file — not two — and its name "danfe_7.html" embeds only the random
disambiguator, not the 44-digit document key; no XML artifact is written. -/
theorem c2_counterexample :
    (query_nfe_impl netB renderNum key1).2.2.length = 1 ∧
    containsSub (danfe_filename 7) key1 = false ∧
    (query_nfe_impl netB renderNum key1).1 = QOut.ok ("/tmp/".data ++ danfe_filename 7) := by
  exact ⟨by decide, by decide, by decide⟩

/-- C2 amended: every successful query persists exactly one file — the
rendered HTML, at `temp_dir/danfe_<random>.html` where `<random>` is the
random `u64` — and returns that single path; no XML file is written and the
name does not embed the document key. -/
theorem c2_success_persists_single_html (env : NetEnv) (render : NfeData → List Char)
    (access_key path : List Char) (pfx : Option Bool) (writes : List (List Char × List Char))
    (h : query_nfe_impl env render access_key = (QOut.ok path, pfx, writes)) :
    path = env.save.tempDir ++ danfe_filename env.save.random ∧
    ∃ contents, writes = [(path, contents)] := by
  unfold query_nfe_impl at h
  repeat' split at h
  all_goals simp at h
  rw [save_html_to_temp] at h
  by_cases hc : env.save.createOk = false
  · rw [if_pos hc] at h
    simp at h
  · rw [if_neg hc] at h
    by_cases hw : env.save.writeOk = false
    · rw [if_pos hw] at h
      simp at h
    · rw [if_neg hw] at h
      simp only [Prod.mk.injEq, QOut.ok.injEq] at h
      obtain ⟨hpath, hpfx, hws⟩ := h
      subst hpath
      exact ⟨rfl, ⟨_, hws.symm⟩⟩

/-- Witness for C2: the concrete successful run returns the path
`/tmp/danfe_7.html` and its single persisted file is exactly that path with
the rendered content. -/
theorem c2_witness :
    "/tmp/".data ++ danfe_filename 7 = netB.save.tempDir ++ danfe_filename netB.save.random ∧
    ∃ contents, [("/tmp/".data ++ danfe_filename 7, "45".data)] =
      [("/tmp/".data ++ danfe_filename 7, contents)] :=
  c2_success_persists_single_html netB renderNum key1 ("/tmp/".data ++ danfe_filename 7)
    (some true) [("/tmp/".data ++ danfe_filename 7, "45".data)] (by decide)
